import Mathlib

/-!
Verification of the khata ledger server core (the Express/SQLite service in
the repository's server entry file): the customers / transactions / reminders
tables, the `POST` endpoints, and the summary aggregates.

Modelling notes, each traced to the source:
* SQLite `REAL` amounts are embedded as exact rationals (`Rat`); the claims
  under study concern the sign convention and additive bookkeeping, not
  binary rounding.
* A table is a list of rows in insertion order; the three tables form `DB`.
* `INSERT` into a table whose `id` column is `TEXT PRIMARY KEY` fails on a
  duplicate id (SQLite constraint violation, surfaced as a thrown error);
  `type`/`amount` are `NOT NULL`, so a missing value also makes the insert
  throw. A thrown error inside `db.transaction(...)` rolls the whole unit
  back, which the embedding renders as `Except.error` with no state change.
* better-sqlite3 compiles SQLite with `SQLITE_DEFAULT_FOREIGN_KEYS=1`, so
  the declared `FOREIGN KEY(customerId) REFERENCES customers(id)` clauses
  of `transactions` and `reminders` are enforced: an INSERT whose non-NULL
  `customerId` matches no customer row throws "FOREIGN KEY constraint
  failed" and the unit rolls back; a NULL `customerId` is not checked.
* The transaction handler guards its balance/date update with the JS
  truthiness test `if (customerId)`: the UPDATE is skipped not only for a
  null/absent `customerId` but also for the empty string, which is falsy
  in JavaScript even though the INSERT stores it (and the FOREIGN KEY
  check applies to it) like any other id. When the UPDATE does run it is
  the literal `UPDATE customers SET balance = balance + ?,
  lastTransactionDate = ? WHERE id = ?`: every row whose id matches, and
  nothing else.
* `SUM(...)` over an empty row set is SQL `NULL`, modelled as `Option.none`;
  the endpoint's `x?.total || 0` coalescing is `jsOrZero`.
* Request fields are typed JSON values (`Option` for nullable fields).
  JavaScript's wider dynamic-typing surface — e.g. a string bound into the
  non-STRICT REAL `amount` column — is outside this typed state space; the
  one claim that turns on it is settled as a code bug from a hand trace,
  not from these definitions.
-/

namespace Khata

/-- A row of the `customers` table (`id TEXT PRIMARY KEY, name TEXT NOT NULL,
phone TEXT, balance REAL DEFAULT 0, type TEXT DEFAULT 'CUSTOMER',
lastTransactionDate TEXT`). -/
structure Customer where
  id : String
  name : String
  phone : Option String
  balance : Rat
  type : String
  lastTransactionDate : Option String
deriving DecidableEq, Repr

/-- A row of the `transactions` table (`id TEXT PRIMARY KEY, type TEXT NOT
NULL, amount REAL NOT NULL, date TEXT NOT NULL, note TEXT, customerId
TEXT`). -/
structure Transaction where
  id : String
  type : String
  amount : Rat
  date : String
  note : Option String
  customerId : Option String
deriving DecidableEq, Repr

/-- A row of the `reminders` table (`id TEXT PRIMARY KEY, title TEXT NOT
NULL, date TEXT NOT NULL, amount REAL, type TEXT NOT NULL, status TEXT
DEFAULT 'UPCOMING', customerId TEXT`). -/
structure Reminder where
  id : String
  title : String
  date : String
  amount : Option Rat
  type : String
  status : String
  customerId : Option String
deriving DecidableEq, Repr

/-- The stored state: the three tables, each in insertion order. -/
structure DB where
  customers : List Customer
  transactions : List Transaction
  reminders : List Reminder
deriving DecidableEq, Repr

/-- The empty database, as created by the `CREATE TABLE` statements. -/
def initDB : DB := { customers := [], transactions := [], reminders := [] }

/-- How a request to an endpoint can fail, each a thrown SQLite error that
Express surfaces as a non-2xx response: a `TEXT PRIMARY KEY` insert with an
id already present throws a uniqueness violation (`duplicateId`); a
`NOT NULL` column bound to an absent value throws a constraint/binding
error (`validationError`); an insert whose non-NULL `customerId` matches no
customer row throws "FOREIGN KEY constraint failed"
(`foreignKeyViolation`), since better-sqlite3 enables foreign-key
enforcement by default. -/
inductive ApiError where
  | duplicateId
  | validationError
  | foreignKeyViolation
deriving DecidableEq, Repr

/-- Body of `POST /api/customers`: `{ id, name, phone, type }`. -/
structure CustomerInput where
  id : String
  name : String
  phone : Option String
  type : String
deriving DecidableEq, Repr

/-- Body of `POST /api/transactions`: `{ id, type, amount, date, note,
customerId }`. `type` and `amount` are `Option` because the endpoint
destructures the JSON body and the claims quantify over their absence. -/
structure TransactionInput where
  id : String
  type : Option String
  amount : Option Rat
  date : String
  note : Option String
  customerId : Option String
deriving DecidableEq, Repr

/-- Body of `POST /api/reminders`: `{ id, title, date, amount, type,
customerId }` — note the insert column list omits `status`. -/
structure ReminderInput where
  id : String
  title : String
  date : String
  amount : Option Rat
  type : String
  customerId : Option String
deriving DecidableEq, Repr

/-- The customer row inserted by `POST /api/customers`: balance is the
literal `0` of the insert, `lastTransactionDate` is not in the column list
and so holds SQL `NULL`. -/
def newCustomer (ci : CustomerInput) : Customer :=
  { id := ci.id, name := ci.name, phone := ci.phone, balance := 0,
    type := ci.type, lastTransactionDate := none }

/-- `POST /api/customers`: `INSERT INTO customers (id, name, phone, type,
balance) VALUES (?, ?, ?, ?, 0)`. -/
def createCustomer (db : DB) (ci : CustomerInput) : Except ApiError DB :=
  if ∃ c ∈ db.customers, c.id = ci.id then .error .duplicateId
  else .ok { db with customers := db.customers ++ [newCustomer ci] }

/-- The balance delta computed by `POST /api/transactions`: `let
balanceChange = 0` followed by the four `if (type === '...')` assignments.
The four conditions are mutually exclusive, so the sequential reassignment
is the same as this chain; every other type (including `EXPENSE`) leaves
the initial `0`. -/
def balanceChange (type : String) (amount : Rat) : Rat :=
  if type = "GIVE_CREDIT" then amount
  else if type = "TAKE_CREDIT" then -amount
  else if type = "PAYMENT_RECEIVED" then -amount
  else if type = "PAYMENT_MADE" then amount
  else 0

/-- The transaction row inserted by `POST /api/transactions` once `type`
and `amount` are known present. -/
def mkTransaction (tx : TransactionInput) (ty : String) (amt : Rat) :
    Transaction :=
  { id := tx.id, type := ty, amount := amt, date := tx.date,
    note := tx.note, customerId := tx.customerId }

/-- `UPDATE customers SET balance = balance + ?, lastTransactionDate = ?
WHERE id = ?`: every row whose id matches gets the delta added and the date
overwritten; other rows are untouched. -/
def applyBalanceUpdate (cid : String) (delta : Rat) (date : String)
    (cs : List Customer) : List Customer :=
  cs.map fun c =>
    if c.id = cid then
      { c with balance := c.balance + delta, lastTransactionDate := some date }
    else c

/-- `POST /api/transactions`: the body of `db.transaction(() => ...)`. The
insert runs first and can throw — on an absent `NOT NULL` `type`/`amount`,
on a duplicate primary key, or on a non-NULL `customerId` that matches no
customer row (the enforced FOREIGN KEY); any throw rolls the unit back.
After a successful insert, the balance/date update runs only under the JS
truthiness guard `if (customerId)`: it is skipped for a NULL `customerId`
and also for the empty string, which is falsy. -/
def applyTransaction (db : DB) (tx : TransactionInput) : Except ApiError DB :=
  match tx.type, tx.amount with
  | some ty, some amt =>
    if ∃ t ∈ db.transactions, t.id = tx.id then .error .duplicateId
    else
      match tx.customerId with
      | some cid =>
        if cid ∈ db.customers.map Customer.id then
          let inserted : DB :=
            { db with transactions := db.transactions ++ [mkTransaction tx ty amt] }
          if cid = "" then .ok inserted
          else .ok { inserted with customers := applyBalanceUpdate cid (balanceChange ty amt) tx.date inserted.customers }
        else .error .foreignKeyViolation
      | none =>
        .ok { db with transactions := db.transactions ++ [mkTransaction tx ty amt] }
  | _, _ => .error .validationError

/-- The reminder row inserted by `POST /api/reminders`: `status` is omitted
from the insert's column list, so the stored default `'UPCOMING'` applies. -/
def newReminder (ri : ReminderInput) : Reminder :=
  { id := ri.id, title := ri.title, date := ri.date, amount := ri.amount,
    type := ri.type, status := "UPCOMING", customerId := ri.customerId }

/-- `POST /api/reminders`: `INSERT INTO reminders (id, title, date, amount,
type, customerId) VALUES (...)`. The insert throws on a duplicate id and,
because the table's FOREIGN KEY is enforced, on a non-NULL `customerId`
matching no customer row. -/
def createReminder (db : DB) (ri : ReminderInput) : Except ApiError DB :=
  if ∃ r ∈ db.reminders, r.id = ri.id then .error .duplicateId
  else
    match ri.customerId with
    | some cid =>
      if cid ∈ db.customers.map Customer.id then
        .ok { db with reminders := db.reminders ++ [newReminder ri] }
      else .error .foreignKeyViolation
    | none => .ok { db with reminders := db.reminders ++ [newReminder ri] }

/-- One request to a mutating endpoint. -/
inductive Op where
  | postCustomer (ci : CustomerInput)
  | postTransaction (tx : TransactionInput)
  | postReminder (ri : ReminderInput)
deriving DecidableEq, Repr

/-- Serving one request: a thrown error (rolled back by the SQLite
transaction, or failing before any write) leaves the stored state as it
was; a success commits the returned state. -/
def step (db : DB) (op : Op) : DB :=
  match op with
  | .postCustomer ci =>
    match createCustomer db ci with
    | .ok db2 => db2
    | .error _ => db
  | .postTransaction tx =>
    match applyTransaction db tx with
    | .ok db2 => db2
    | .error _ => db
  | .postReminder ri =>
    match createReminder db ri with
    | .ok db2 => db2
    | .error _ => db

/-- The stored state after a sequence of requests against a fresh database. -/
def runOps (ops : List Op) : DB := ops.foldl step initDB

/-- SQL `SUM(...)` over a list of values: `NULL` (`none`) on an empty row
set, the sum otherwise. -/
def sqlSum (l : List Rat) : Option Rat :=
  match l with
  | [] => none
  | _ => some l.sum

/-- The endpoint's `x?.total || 0` coalescing: `NULL` becomes `0` (and a
present `0` stays `0`, as with JavaScript `||`). -/
def jsOrZero (o : Option Rat) : Rat := o.getD 0

/-- `SELECT SUM(amount) FROM transactions WHERE type = 'EXPENSE' AND date =
?` with today's date, coalesced by `|| 0`. -/
def todayExpense (db : DB) (today : String) : Rat :=
  jsOrZero (sqlSum ((db.transactions.filter
    fun t => decide (t.type = "EXPENSE" ∧ t.date = today)).map Transaction.amount))

/-- `SELECT SUM(balance) FROM customers WHERE balance > 0`, coalesced by
`|| 0` (the summary's `iGet`). -/
def totalReceivable (db : DB) : Rat :=
  jsOrZero (sqlSum ((db.customers.filter
    fun c => decide (0 < c.balance)).map Customer.balance))

/-- `SELECT SUM(ABS(balance)) FROM customers WHERE balance < 0`, coalesced
by `|| 0` (the summary's `theyGet`). -/
def totalPayable (db : DB) : Rat :=
  jsOrZero (sqlSum ((db.customers.filter
    fun c => decide (c.balance < 0)).map fun c => |c.balance|))

/-- The signed delta a recorded transaction row contributed when it was
applied with a `customerId` present. -/
def txDelta (t : Transaction) : Rat := balanceChange t.type t.amount

/-- Sum of signed deltas of the recorded transactions referencing a given
customer id — the spec's independent recomputation from the transaction
log. -/
def deltaSumTx (ts : List Transaction) (cid : String) : Rat :=
  ((ts.filter fun t => decide (t.customerId = some cid)).map txDelta).sum

/-- The §8 invariant: every stored customer's balance equals the sum of
signed deltas of all recorded transactions referencing it. -/
def balanceInvariant (db : DB) : Prop :=
  ∀ c ∈ db.customers, c.balance = deltaSumTx db.transactions c.id

/-- Every recorded transaction's `customerId`, when present, names an
existing customer row. -/
def refsOk (db : DB) : Prop :=
  ∀ t ∈ db.transactions, ∀ cid, t.customerId = some cid →
    cid ∈ db.customers.map Customer.id

/-- Whether a request avoids the one present-but-falsy `customerId`: the
empty string is a legal id (caller-assigned, insertable, FOREIGN-KEY
checked) yet fails the JS truthiness guard `if (customerId)`, so the
balance update is skipped for it. -/
def wellFormedOp : Op → Bool
  | .postTransaction tx => decide (tx.customerId ≠ some "")
  | _ => true

/-- No request of the sequence carries the empty-string `customerId`. -/
def wellFormedOps (ops : List Op) : Bool := ops.all wellFormedOp

/-- Claim C1 counterexample: with customer `""` existing at balance 0, a
GIVE_CREDIT of 100 carrying the present `customerId` `""` succeeds and
records the row, but the customer row is returned unchanged — the JS
truthiness guard `if (customerId)` skips the UPDATE for the falsy empty
string, so the delta actually added is 0 where the claim's table demands
`+amount`. -/
theorem transaction_delta_rule_cex :
    applyTransaction (DB.mk [⟨"", "A", none, 0, "CUSTOMER", none⟩] [] [])
      ⟨"t1", some "GIVE_CREDIT", some 100, "2026-01-01", none, some ""⟩ =
      .ok (DB.mk [⟨"", "A", none, 0, "CUSTOMER", none⟩]
        [⟨"t1", "GIVE_CREDIT", 100, "2026-01-01", none, some ""⟩] []) := by
  simp [applyTransaction, mkTransaction]

/-- Claim C1 (amended): for every transaction committed with a `customerId`
that is present and truthy (non-empty), the signed delta added to every
matching customer row is fixed solely by the transaction's type and
amount per the table spelled out in the conclusion — `+amount` for
GIVE_CREDIT, `-amount` for TAKE_CREDIT, `-amount` for PAYMENT_RECEIVED,
`+amount` for PAYMENT_MADE, `0` for EXPENSE and every other type — and the
row is recorded; for the empty-string `customerId` the update is skipped
entirely (the counterexample) though the row is still recorded. -/
theorem transaction_delta_rule (db : DB) (tx : TransactionInput)
    (ty : String) (amt : Rat) (cid : String) (db2 : DB)
    (hty : tx.type = some ty) (ham : tx.amount = some amt)
    (hcid : tx.customerId = some cid) (hne : cid ≠ "")
    (hok : applyTransaction db tx = .ok db2) :
    db2.transactions = db.transactions ++ [mkTransaction tx ty amt] ∧
    db2.customers = db.customers.map (fun c =>
      if c.id = cid then
        { c with
          balance := c.balance +
            (if ty = "GIVE_CREDIT" then amt
             else if ty = "TAKE_CREDIT" then -amt
             else if ty = "PAYMENT_RECEIVED" then -amt
             else if ty = "PAYMENT_MADE" then amt
             else 0),
          lastTransactionDate := some tx.date }
      else c) := by
  simp only [applyTransaction, hty, ham, hcid] at hok
  by_cases hdup : ∃ t ∈ db.transactions, t.id = tx.id
  · simp [hdup] at hok
  · rw [if_neg hdup] at hok
    by_cases hfk : cid ∈ db.customers.map Customer.id
    · rw [if_pos hfk, if_neg hne] at hok
      simp only [Except.ok.injEq] at hok
      subst hok
      exact ⟨rfl, rfl⟩
    · rw [if_neg hfk] at hok
      exact absurd hok (by simp)

/-- Claim C1 (amended) witness: an `EXPENSE` transaction carrying the
truthy `customerId` `c1` is recorded, leaves the matching customer's
balance at `7 + 0`, and rewrites the row's date. -/
theorem transaction_delta_rule_witness :
    (DB.mk [⟨"c1", "A", none, 7, "CUSTOMER", some "2026-10-02"⟩]
        [⟨"t1", "EXPENSE", 50, "2026-10-02", none, some "c1"⟩] []).transactions =
      (DB.mk [⟨"c1", "A", none, 7, "CUSTOMER", none⟩] [] []).transactions ++
        [mkTransaction ⟨"t1", some "EXPENSE", some 50, "2026-10-02", none,
          some "c1"⟩ "EXPENSE" 50] ∧
    (DB.mk [⟨"c1", "A", none, 7, "CUSTOMER", some "2026-10-02"⟩]
        [⟨"t1", "EXPENSE", 50, "2026-10-02", none, some "c1"⟩] []).customers =
      (DB.mk [⟨"c1", "A", none, 7, "CUSTOMER", none⟩] [] []).customers.map
        (fun c =>
          if c.id = "c1" then
            { c with
              balance := c.balance +
                (if "EXPENSE" = "GIVE_CREDIT" then (50 : Rat)
                 else if "EXPENSE" = "TAKE_CREDIT" then -(50 : Rat)
                 else if "EXPENSE" = "PAYMENT_RECEIVED" then -(50 : Rat)
                 else if "EXPENSE" = "PAYMENT_MADE" then (50 : Rat)
                 else 0),
              lastTransactionDate := some "2026-10-02" }
          else c) :=
  transaction_delta_rule
    (DB.mk [⟨"c1", "A", none, 7, "CUSTOMER", none⟩] [] [])
    ⟨"t1", some "EXPENSE", some 50, "2026-10-02", none, some "c1"⟩
    "EXPENSE" 50 "c1"
    (DB.mk [⟨"c1", "A", none, 7, "CUSTOMER", some "2026-10-02"⟩]
      [⟨"t1", "EXPENSE", 50, "2026-10-02", none, some "c1"⟩] [])
    rfl rfl rfl (by decide)
    (by simp [applyTransaction, mkTransaction, applyBalanceUpdate,
      balanceChange])

/-- Claim C3 counterexample: with customer `""` existing, a TAKE_CREDIT of
40 carrying the present `customerId` `""` commits the transaction row
while the customer's balance and `lastTransactionDate` are left untouched
— the row without the update, refuting both-or-neither atomicity as the
claim states it. -/
theorem applyTransaction_atomic_cex :
    applyTransaction (DB.mk [⟨"", "B", none, 0, "CUSTOMER", none⟩] [] [])
      ⟨"t2", some "TAKE_CREDIT", some 40, "2026-02-02", none, some ""⟩ =
      .ok (DB.mk [⟨"", "B", none, 0, "CUSTOMER", none⟩]
        [⟨"t2", "TAKE_CREDIT", 40, "2026-02-02", none, some ""⟩] []) := by
  simp [applyTransaction, mkTransaction]

/-- Claim C3 (amended): the create-transaction operation is all-or-nothing
with one carve-out. Either it fails — absent `type`/`amount`, duplicate
id, or unresolved non-NULL `customerId` (the enforced FOREIGN KEY) — and
the stored state is exactly the original (the SQLite transaction rolls
back); or it succeeds and commits the new row, with the customer
balance/`lastTransactionDate` update also committed when `customerId` is
present and truthy, but skipped — row committed alone — when `customerId`
is the empty string (the JS truthiness guard) or absent. Reminders are
never touched. -/
theorem applyTransaction_atomic (db : DB) (tx : TransactionInput) :
    (∃ e, applyTransaction db tx = .error e ∧
      step db (.postTransaction tx) = db) ∨
    (∃ ty amt db2, tx.type = some ty ∧ tx.amount = some amt ∧
      applyTransaction db tx = .ok db2 ∧
      step db (.postTransaction tx) = db2 ∧
      db2.transactions = db.transactions ++ [mkTransaction tx ty amt] ∧
      db2.reminders = db.reminders ∧
      (∀ cid, tx.customerId = some cid → cid ≠ "" →
        db2.customers =
          applyBalanceUpdate cid (balanceChange ty amt) tx.date db.customers) ∧
      (tx.customerId = some "" → db2.customers = db.customers) ∧
      (tx.customerId = none → db2.customers = db.customers)) := by
  rcases hty : tx.type with _ | ty
  · refine .inl ⟨.validationError, ?_, ?_⟩ <;>
      simp [applyTransaction, step, hty]
  · rcases ham : tx.amount with _ | amt
    · refine .inl ⟨.validationError, ?_, ?_⟩ <;>
        simp [applyTransaction, step, hty, ham]
    · by_cases hdup : ∃ t ∈ db.transactions, t.id = tx.id
      · refine .inl ⟨.duplicateId, ?_, ?_⟩ <;>
          simp [applyTransaction, step, hty, ham, hdup]
      · rcases hcid : tx.customerId with _ | cid
        · refine .inr ⟨ty, amt,
            { db with transactions := db.transactions ++ [mkTransaction tx ty amt] },
            rfl, rfl, ?_, ?_, rfl, rfl, ?_, ?_, fun _ => rfl⟩
          · simp [applyTransaction, hty, ham, hdup, hcid]
          · simp [step, applyTransaction, hty, ham, hdup, hcid]
          · intro cid hc _
            exact Option.noConfusion hc
          · intro hc
            exact Option.noConfusion hc
        · by_cases hfk : cid ∈ db.customers.map Customer.id
          · by_cases hne : cid = ""
            · subst hne
              refine .inr ⟨ty, amt,
                { db with transactions := db.transactions ++ [mkTransaction tx ty amt] },
                rfl, rfl, ?_, ?_, rfl, rfl, ?_, fun _ => rfl, ?_⟩
              · simp [applyTransaction, hty, ham, hdup, hcid, hfk]
              · simp [step, applyTransaction, hty, ham, hdup, hcid, hfk]
              · intro cid2 hc hne2
                obtain rfl : "" = cid2 := Option.some.inj hc
                exact absurd rfl hne2
              · intro hc
                exact Option.noConfusion hc
            · refine .inr ⟨ty, amt,
                { customers := applyBalanceUpdate cid (balanceChange ty amt) tx.date db.customers,
                  transactions := db.transactions ++ [mkTransaction tx ty amt],
                  reminders := db.reminders },
                rfl, rfl, ?_, ?_, rfl, rfl, ?_, ?_, ?_⟩
              · simp [applyTransaction, hty, ham, hdup, hcid, hfk, hne]
              · simp [step, applyTransaction, hty, ham, hdup, hcid, hfk, hne]
              · intro cid2 hc _
                obtain rfl : cid = cid2 := Option.some.inj hc
                rfl
              · intro hc
                obtain rfl : cid = "" := Option.some.inj hc
                exact absurd rfl hne
              · intro hc
                exact Option.noConfusion hc
          · refine .inl ⟨.foreignKeyViolation, ?_, ?_⟩ <;>
              simp [applyTransaction, step, hty, ham, hdup, hcid, hfk]

/-- Claim C4: re-submitting a transaction whose id is already persisted is
rejected — the `TEXT PRIMARY KEY` insert throws, the enclosing SQLite
transaction rolls back — and the stored state, in particular every
customer's balance, is unchanged (no double-application of the delta).
This is the literal code behavior; the spec's §9 design note claiming
re-submission "currently double-applies the balance delta" is wrong about
the code. -/
theorem duplicate_id_rejected (db : DB) (tx : TransactionInput)
    (ty : String) (amt : Rat)
    (hty : tx.type = some ty) (ham : tx.amount = some amt)
    (hdup : ∃ t ∈ db.transactions, t.id = tx.id) :
    applyTransaction db tx = .error .duplicateId ∧
    step db (.postTransaction tx) = db := by
  constructor <;> simp [applyTransaction, step, hty, ham, hdup]

/-- Claim C4 witness: re-submitting id `t1` against a store already holding
it is rejected and leaves the store as it was. -/
theorem duplicate_id_rejected_witness :
    applyTransaction
      (DB.mk [⟨"c1", "A", none, 100, "CUSTOMER", some "2026-01-01"⟩]
        [⟨"t1", "GIVE_CREDIT", 100, "2026-01-01", none, some "c1"⟩] [])
      ⟨"t1", some "GIVE_CREDIT", some 100, "2026-01-01", none, some "c1"⟩ =
      .error .duplicateId ∧
    step
      (DB.mk [⟨"c1", "A", none, 100, "CUSTOMER", some "2026-01-01"⟩]
        [⟨"t1", "GIVE_CREDIT", 100, "2026-01-01", none, some "c1"⟩] [])
      (.postTransaction
        ⟨"t1", some "GIVE_CREDIT", some 100, "2026-01-01", none, some "c1"⟩) =
      DB.mk [⟨"c1", "A", none, 100, "CUSTOMER", some "2026-01-01"⟩]
        [⟨"t1", "GIVE_CREDIT", 100, "2026-01-01", none, some "c1"⟩] [] :=
  duplicate_id_rejected
    (DB.mk [⟨"c1", "A", none, 100, "CUSTOMER", some "2026-01-01"⟩]
      [⟨"t1", "GIVE_CREDIT", 100, "2026-01-01", none, some "c1"⟩] [])
    ⟨"t1", some "GIVE_CREDIT", some 100, "2026-01-01", none, some "c1"⟩
    "GIVE_CREDIT" 100 rfl rfl (by decide)

/-- Supporting lemma for the absence half of the malformed-input story: a
create-transaction request whose `type` or `amount` is absent fails — the
`NOT NULL` insert throws — and nothing is persisted. (The malformed half
of that story, e.g. a string amount, lives in JavaScript dynamic typing
and SQLite type affinity outside this typed state space and is reported
as a code bug from a hand trace.) -/
theorem validation_missing_fields (db : DB) (tx : TransactionInput)
    (h : tx.type = none ∨ tx.amount = none) :
    applyTransaction db tx = .error .validationError ∧
    step db (.postTransaction tx) = db := by
  have herr : applyTransaction db tx = .error .validationError := by
    rcases h with h | h
    · simp [applyTransaction, h]
    · rcases hty : tx.type with _ | ty <;> simp [applyTransaction, h, hty]
  exact ⟨herr, by simp [step, herr]⟩

/-- Concrete instance of the absence lemma: a request missing `amount` is
rejected and persists nothing. -/
theorem validation_missing_fields_witness :
    applyTransaction initDB
      ⟨"t1", some "GIVE_CREDIT", none, "2026-01-01", none, none⟩ =
      .error .validationError ∧
    step initDB
      (.postTransaction
        ⟨"t1", some "GIVE_CREDIT", none, "2026-01-01", none, none⟩) = initDB :=
  validation_missing_fields initDB
    ⟨"t1", some "GIVE_CREDIT", none, "2026-01-01", none, none⟩ (.inr rfl)

/-- Claim C6: a create-transaction request whose present (non-NULL)
`customerId` resolves to no existing customer fails and persists nothing:
better-sqlite3 enforces the declared FOREIGN KEY by default
(`SQLITE_DEFAULT_FOREIGN_KEYS=1`), so the INSERT throws "FOREIGN KEY
constraint failed" and the SQLite transaction rolls back. This failure is
the program's realization of the spec's `NotFound` label for the
referenced-customer-missing condition (surfaced over HTTP as a non-2xx
error response). -/
theorem missing_customer_rejected (db : DB) (tx : TransactionInput)
    (ty : String) (amt : Rat) (cid : String)
    (hty : tx.type = some ty) (ham : tx.amount = some amt)
    (hcid : tx.customerId = some cid)
    (hfresh : ¬ ∃ t ∈ db.transactions, t.id = tx.id)
    (hmiss : cid ∉ db.customers.map Customer.id) :
    applyTransaction db tx = .error .foreignKeyViolation ∧
    step db (.postTransaction tx) = db := by
  have herr : applyTransaction db tx = .error .foreignKeyViolation := by
    simp only [applyTransaction, hty, ham, hcid]
    rw [if_neg hfresh, if_neg hmiss]
  exact ⟨herr, by simp [step, herr]⟩

/-- Claim C6 witness: against the empty store, a transaction naming the
nonexistent customer `ghost` is rejected by the FOREIGN KEY constraint and
persists nothing. -/
theorem missing_customer_rejected_witness :
    applyTransaction initDB
      ⟨"t9", some "GIVE_CREDIT", some 100, "2026-01-01", none, some "ghost"⟩ =
      .error .foreignKeyViolation ∧
    step initDB
      (.postTransaction
        ⟨"t9", some "GIVE_CREDIT", some 100, "2026-01-01", none,
          some "ghost"⟩) = initDB :=
  missing_customer_rejected initDB
    ⟨"t9", some "GIVE_CREDIT", some 100, "2026-01-01", none, some "ghost"⟩
    "GIVE_CREDIT" 100 "ghost" rfl rfl rfl (by decide) (by decide)

/-- Appending a transaction that references `cid` adds its delta to the
recomputed sum for `cid`. -/
theorem deltaSumTx_append_ref (ts : List Transaction) (t : Transaction)
    (cid : String) (h : t.customerId = some cid) :
    deltaSumTx (ts ++ [t]) cid = deltaSumTx ts cid + txDelta t := by
  simp [deltaSumTx, List.filter_append, h]

/-- Appending a transaction that does not reference `cid` leaves the
recomputed sum for `cid` unchanged. -/
theorem deltaSumTx_append_other (ts : List Transaction) (t : Transaction)
    (cid : String) (h : t.customerId ≠ some cid) :
    deltaSumTx (ts ++ [t]) cid = deltaSumTx ts cid := by
  simp [deltaSumTx, List.filter_append, h]

/-- The balance update rewrites balances and dates but never ids. -/
theorem applyBalanceUpdate_map_id (cid : String) (delta : Rat) (date : String)
    (cs : List Customer) :
    (applyBalanceUpdate cid delta date cs).map Customer.id =
      cs.map Customer.id := by
  unfold applyBalanceUpdate
  rw [List.map_map]
  exact List.map_congr_left fun c _ => by by_cases h : c.id = cid <;> simp [h]

/-- A committed create-reminder changes neither customers nor
transactions. -/
theorem createReminder_frame (db : DB) (ri : ReminderInput) (db2 : DB)
    (h : createReminder db ri = .ok db2) :
    db2.customers = db.customers ∧ db2.transactions = db.transactions := by
  rw [createReminder] at h
  by_cases hdup : ∃ r ∈ db.reminders, r.id = ri.id
  · simp [hdup] at h
  · rw [if_neg hdup] at h
    rcases hcid : ri.customerId with _ | cid
    · simp only [hcid, Except.ok.injEq] at h
      subst h
      exact ⟨rfl, rfl⟩
    · simp only [hcid] at h
      by_cases hfk : cid ∈ db.customers.map Customer.id
      · rw [if_pos hfk] at h
        simp only [Except.ok.injEq] at h
        subst h
        exact ⟨rfl, rfl⟩
      · rw [if_neg hfk] at h
        exact absurd h (by simp)

/-- Serving one request preserves both the §8 balance invariant and the
well-reference invariant, provided the request does not carry the
empty-string `customerId` (the FOREIGN KEY already guarantees every
committed reference resolves; the truthiness guard makes the empty string
the one resolving reference whose delta is dropped). -/
theorem step_preserves_invariants (db : DB) (op : Op)
    (hB : balanceInvariant db) (hR : refsOk db)
    (hwf : wellFormedOp op = true) :
    balanceInvariant (step db op) ∧ refsOk (step db op) := by
  cases op with
  | postCustomer ci =>
    by_cases hdup : ∃ c ∈ db.customers, c.id = ci.id
    · simpa [step, createCustomer, hdup] using ⟨hB, hR⟩
    · have hstep : step db (.postCustomer ci) =
          { db with customers := db.customers ++ [newCustomer ci] } := by
        simp [step, createCustomer, hdup]
      rw [hstep]
      constructor
      · intro c hc
        rcases List.mem_append.mp hc with hold | hnew
        · exact hB c hold
        · simp only [List.mem_singleton] at hnew
          subst hnew
          show (newCustomer ci).balance =
            deltaSumTx db.transactions (newCustomer ci).id
          have hfil : db.transactions.filter
              (fun t => decide (t.customerId = some ci.id)) = [] := by
            refine List.filter_eq_nil_iff.mpr ?_
            intro t ht
            simp only [decide_eq_true_eq]
            intro hcid
            rcases List.mem_map.mp (hR t ht ci.id hcid) with ⟨c0, hc0, hid0⟩
            exact hdup ⟨c0, hc0, hid0⟩
          show (0 : Rat) = deltaSumTx db.transactions ci.id
          rw [deltaSumTx, hfil]
          rfl
      · intro t ht cid hcid
        have h0 := hR t ht cid hcid
        show cid ∈ (db.customers ++ [newCustomer ci]).map Customer.id
        rw [List.map_append]
        exact List.mem_append_left _ h0
  | postTransaction tx =>
    rcases happ : applyTransaction db tx with e | db2
    · simpa [step, happ] using ⟨hB, hR⟩
    · have hstep : step db (.postTransaction tx) = db2 := by
        simp [step, happ]
      rw [hstep]
      rcases hty : tx.type with _ | ty
      · simp [applyTransaction, hty] at happ
      rcases ham : tx.amount with _ | amt
      · simp [applyTransaction, hty, ham] at happ
      by_cases hdup : ∃ t ∈ db.transactions, t.id = tx.id
      · simp [applyTransaction, hty, ham, hdup] at happ
      rcases hcid : tx.customerId with _ | cid
      · -- no customer reference: log grows, customers untouched
        simp only [applyTransaction, hty, ham, hcid, if_neg hdup,
          Except.ok.injEq] at happ
        subst happ
        constructor
        · intro c hc
          show c.balance =
            deltaSumTx (db.transactions ++ [mkTransaction tx ty amt]) c.id
          have hother : (mkTransaction tx ty amt).customerId ≠ some c.id := by
            show tx.customerId ≠ some c.id
            rw [hcid]
            exact fun hcon => Option.noConfusion hcon
          rw [deltaSumTx_append_other _ _ _ hother]
          exact hB c hc
        · intro t ht cid2 hcid2
          have ht2 : t ∈ db.transactions ++ [mkTransaction tx ty amt] := ht
          rcases List.mem_append.mp ht2 with hold | hnew
          · exact hR t hold cid2 hcid2
          · simp only [List.mem_singleton] at hnew
            subst hnew
            rw [show (mkTransaction tx ty amt).customerId = tx.customerId
              from rfl, hcid] at hcid2
            exact Option.noConfusion hcid2
      · -- customer reference present: resolving by the FOREIGN KEY, and
        -- truthy by the trace hypothesis
        have hne : cid ≠ "" := by
          have h0 := hwf
          simp only [wellFormedOp, decide_eq_true_eq] at h0
          rw [hcid] at h0
          intro hcon
          exact h0 (by rw [hcon])
        by_cases hfk : cid ∈ db.customers.map Customer.id
        · simp only [applyTransaction, hty, ham, hcid, if_neg hdup,
            if_pos hfk, if_neg hne, Except.ok.injEq] at happ
          subst happ
          constructor
          · intro c hc
            have hc2 : c ∈ applyBalanceUpdate cid (balanceChange ty amt)
                tx.date db.customers := hc
            unfold applyBalanceUpdate at hc2
            rcases List.mem_map.mp hc2 with ⟨c0, hc0, hfc⟩
            have href : (mkTransaction tx ty amt).customerId = some cid := hcid
            by_cases hid : c0.id = cid
            · rw [if_pos hid] at hfc
              subst hfc
              show c0.balance + balanceChange ty amt =
                deltaSumTx (db.transactions ++ [mkTransaction tx ty amt]) c0.id
              rw [hid, deltaSumTx_append_ref _ _ _ href, ← hid, ← hB c0 hc0]
              rfl
            · rw [if_neg hid] at hfc
              subst hfc
              show c0.balance =
                deltaSumTx (db.transactions ++ [mkTransaction tx ty amt]) c0.id
              have hother : (mkTransaction tx ty amt).customerId ≠ some c0.id := by
                show tx.customerId ≠ some c0.id
                rw [hcid]
                intro hcon
                exact hid (Option.some.inj hcon).symm
              rw [deltaSumTx_append_other _ _ _ hother]
              exact hB c0 hc0
          · intro t ht cid2 hcid2
            have ht2 : t ∈ db.transactions ++ [mkTransaction tx ty amt] := ht
            show cid2 ∈ (applyBalanceUpdate cid (balanceChange ty amt)
              tx.date db.customers).map Customer.id
            rw [applyBalanceUpdate_map_id]
            rcases List.mem_append.mp ht2 with hold | hnew
            · exact hR t hold cid2 hcid2
            · simp only [List.mem_singleton] at hnew
              subst hnew
              rw [show (mkTransaction tx ty amt).customerId = tx.customerId
                from rfl, hcid] at hcid2
              obtain rfl : cid = cid2 := Option.some.inj hcid2
              exact hfk
        · simp [applyTransaction, hty, ham, hcid, if_neg hdup, hfk] at happ
  | postReminder ri =>
    rcases h : createReminder db ri with e | db2
    · simpa [step, h] using ⟨hB, hR⟩
    · have hstep : step db (.postReminder ri) = db2 := by
        simp [step, h]
      rw [hstep]
      obtain ⟨hcs, hts⟩ := createReminder_frame db ri db2 h
      constructor
      · intro c hc
        rw [hcs] at hc
        rw [hts]
        exact hB c hc
      · intro t ht cid hcid
        rw [hts] at ht
        rw [hcs]
        exact hR t ht cid hcid

/-- Both invariants propagate along any request sequence free of the
empty-string `customerId`. -/
theorem wellformed_foldl (ops : List Op) : ∀ db : DB, balanceInvariant db →
    refsOk db → ops.all wellFormedOp = true →
    balanceInvariant (ops.foldl step db) ∧ refsOk (ops.foldl step db) := by
  induction ops with
  | nil => exact fun _ hB hR _ => ⟨hB, hR⟩
  | cons op ops ih =>
    intro db hB hR hwf
    simp only [List.all_cons, Bool.and_eq_true] at hwf
    obtain ⟨h1, h2⟩ := hwf
    obtain ⟨hB2, hR2⟩ := step_preserves_invariants db op hB hR h1
    simpa [List.foldl_cons] using ih (step db op) hB2 hR2 h2

/-- Claim C2 counterexample: the invariant as stated fails on the program.
Create customer `""` (the empty string is a legal caller-assigned id), then
apply a GIVE_CREDIT of 100 with `customerId` `""`: the FOREIGN KEY check
passes, the row is recorded referencing `""`, but the JS truthiness guard
`if (customerId)` skips the balance update — stored balance 0, delta sum
100. -/
theorem balances_match_delta_sums_cex :
    ¬ balanceInvariant (runOps
      [.postCustomer ⟨"", "A", none, "CUSTOMER"⟩,
       .postTransaction ⟨"t1", some "GIVE_CREDIT", some 100, "2026-01-01",
         none, some ""⟩]) := by
  norm_num [balanceInvariant, runOps, step, applyTransaction, createCustomer,
    newCustomer, mkTransaction, applyBalanceUpdate, deltaSumTx, txDelta,
    balanceChange, initDB]

/-- Claim C2 (amended): after any request sequence against a fresh store in
which no transaction carries the empty-string `customerId`, every
customer's stored balance equals the sum of the signed deltas (per the
sign-convention table) of all recorded transactions referencing that
customer, starting from 0 at creation — and this holds at every point,
since the hypothesis is prefix-closed over the quantified sequence.
(Resolution needs no hypothesis: the enforced FOREIGN KEY already rejects
any transaction whose non-NULL `customerId` matches no customer; the empty
string is the one resolving id whose update the JS truthiness guard
drops.) -/
theorem balances_match_delta_sums (ops : List Op)
    (h : wellFormedOps ops = true) :
    balanceInvariant (runOps ops) :=
  (wellformed_foldl ops initDB (fun c hc => absurd hc (List.not_mem_nil c))
    (fun t ht => absurd ht (List.not_mem_nil t)) h).1

/-- Claim C2 (amended) witness: create customer `c1`, then apply a
GIVE_CREDIT of 100 to it; the hypothesis holds and so does the invariant. -/
theorem balances_match_delta_sums_witness :
    wellFormedOps
      [.postCustomer ⟨"c1", "A", none, "CUSTOMER"⟩,
       .postTransaction ⟨"t1", some "GIVE_CREDIT", some 100, "2026-01-01",
         none, some "c1"⟩] = true ∧
    balanceInvariant (runOps
      [.postCustomer ⟨"c1", "A", none, "CUSTOMER"⟩,
       .postTransaction ⟨"t1", some "GIVE_CREDIT", some 100, "2026-01-01",
         none, some "c1"⟩]) :=
  ⟨by decide, balances_match_delta_sums
    [.postCustomer ⟨"c1", "A", none, "CUSTOMER"⟩,
     .postTransaction ⟨"t1", some "GIVE_CREDIT", some 100, "2026-01-01",
       none, some "c1"⟩] (by decide)⟩

/-- The `|| 0` coalescing of a SQL `SUM` is exactly the plain sum of the
summed values (`SUM` over no rows is `NULL`, coalesced to `0`, which is the
empty sum). -/
theorem jsOrZero_sqlSum (l : List Rat) : jsOrZero (sqlSum l) = l.sum := by
  cases l <;> simp [jsOrZero, sqlSum]

/-- Splitting a customer population by balance sign: positive-balance sum
minus absolute-negative-balance sum is the total sum. -/
theorem filter_pos_sub_filter_neg (cs : List Customer) :
    ((cs.filter fun c => decide (0 < c.balance)).map Customer.balance).sum -
      ((cs.filter fun c => decide (c.balance < 0)).map
        fun c => |c.balance|).sum =
      (cs.map Customer.balance).sum := by
  induction cs with
  | nil => simp
  | cons c cs ih =>
    rcases lt_trichotomy c.balance 0 with h | h | h
    · have h1 : ¬ (0 < c.balance) := by linarith
      simp [List.filter_cons, h, h1, abs_of_neg h]
      linarith [ih]
    · have h1 : ¬ (0 < c.balance) := by simp [h]
      have h2 : ¬ (c.balance < 0) := by simp [h]
      simp [List.filter_cons, h, h1, h2]
      linarith [ih]
    · have h2 : ¬ (c.balance < 0) := by linarith
      simp [List.filter_cons, h, h2]
      linarith [ih]

/-- Claim C7: for any stored customer population, `totalReceivable` minus
`totalPayable` equals the sum of all customers' balances. -/
theorem receivable_sub_payable_eq_total (db : DB) :
    totalReceivable db - totalPayable db =
      (db.customers.map Customer.balance).sum := by
  rw [totalReceivable, totalPayable, jsOrZero_sqlSum, jsOrZero_sqlSum]
  exact filter_pos_sub_filter_neg db.customers

/-- Claim C8: with no customer rows and no EXPENSE transaction dated today,
the three summary aggregates each evaluate to `0` — the SQL `SUM` comes
back `NULL` and the endpoint's `|| 0` coalesces it; no error and no null
escapes (the aggregates are total functions into the numbers). -/
theorem summary_empty_defaults (db : DB) (today : String)
    (hc : db.customers = [])
    (he : ∀ t ∈ db.transactions, ¬ (t.type = "EXPENSE" ∧ t.date = today)) :
    todayExpense db today = 0 ∧ totalReceivable db = 0 ∧
      totalPayable db = 0 := by
  have hfe : db.transactions.filter
      (fun t => decide (t.type = "EXPENSE" ∧ t.date = today)) = [] := by
    refine List.filter_eq_nil_iff.mpr ?_
    intro t ht
    simpa using he t ht
  refine ⟨?_, ?_, ?_⟩
  · rw [todayExpense, hfe]
    rfl
  · rw [totalReceivable, hc]
    rfl
  · rw [totalPayable, hc]
    rfl

/-- Claim C8 witness: the three aggregates on the fresh empty store are all
`0`. -/
theorem summary_empty_defaults_witness :
    todayExpense initDB "2026-10-12" = 0 ∧ totalReceivable initDB = 0 ∧
      totalPayable initDB = 0 :=
  summary_empty_defaults initDB "2026-10-12" rfl (by simp [initDB])

/-- Claim C9 counterexample: with customer `""` existing and
`lastTransactionDate` NULL, an `EXPENSE` transaction carrying the present
`customerId` `""` commits — yet the customer row comes back with
`lastTransactionDate` still NULL: the JS truthiness guard skips the UPDATE
for the falsy empty string, so no date is ever stamped despite a
successful apply with `customerId` present. -/
theorem lastTransactionDate_semantics_cex :
    applyTransaction (DB.mk [⟨"", "C", none, 0, "CUSTOMER", none⟩] [] [])
      ⟨"t3", some "EXPENSE", some 50, "2026-03-03", none, some ""⟩ =
      .ok (DB.mk [⟨"", "C", none, 0, "CUSTOMER", none⟩]
        [⟨"t3", "EXPENSE", 50, "2026-03-03", none, some ""⟩] []) := by
  simp [applyTransaction, mkTransaction]

/-- Claim C9 (amended): a freshly created customer row has
`lastTransactionDate` NULL; and after any successful create-transaction
whose `customerId` is present and truthy (non-empty), every customer row
matching that id carries exactly the `date` supplied on that transaction —
for every transaction type, `EXPENSE` included, since the UPDATE runs
whenever the truthiness guard passes — so the latest committed transaction
wins, whatever its calendar date. For the empty-string `customerId` the
UPDATE is skipped and no date is stamped (the counterexample). -/
theorem lastTransactionDate_semantics (db : DB) (ci : CustomerInput)
    (tx : TransactionInput) (ty : String) (amt : Rat) (cid : String)
    (dbC dbT : DB)
    (hC : createCustomer db ci = .ok dbC)
    (hty : tx.type = some ty) (ham : tx.amount = some amt)
    (hcid : tx.customerId = some cid) (hne : cid ≠ "")
    (hT : applyTransaction db tx = .ok dbT) :
    dbC.customers = db.customers ++ [newCustomer ci] ∧
    (newCustomer ci).lastTransactionDate = none ∧
    ∀ c ∈ dbT.customers, c.id = cid →
      c.lastTransactionDate = some tx.date := by
  refine ⟨?_, rfl, ?_⟩
  · rw [createCustomer] at hC
    by_cases hdup : ∃ c ∈ db.customers, c.id = ci.id
    · simp [hdup] at hC
    · rw [if_neg hdup] at hC
      simp only [Except.ok.injEq] at hC
      subst hC
      rfl
  · simp only [applyTransaction, hty, ham, hcid] at hT
    by_cases hdup2 : ∃ t ∈ db.transactions, t.id = tx.id
    · simp [hdup2] at hT
    · rw [if_neg hdup2] at hT
      by_cases hfk : cid ∈ db.customers.map Customer.id
      · rw [if_pos hfk, if_neg hne] at hT
        simp only [Except.ok.injEq] at hT
        subst hT
        intro c hc hcidc
        have hc2 : c ∈ applyBalanceUpdate cid (balanceChange ty amt)
            tx.date db.customers := hc
        unfold applyBalanceUpdate at hc2
        rcases List.mem_map.mp hc2 with ⟨c0, _, hfc⟩
        by_cases hid : c0.id = cid
        · rw [if_pos hid] at hfc
          subst hfc
          rfl
        · rw [if_neg hid] at hfc
          subst hfc
          exact absurd hcidc hid
      · rw [if_neg hfk] at hT
        exact absurd hT (by simp)

/-- Claim C9 (amended) witness: creating `c2` yields a row with no
`lastTransactionDate`, and an `EXPENSE` transaction on existing customer
`c1` stamps `c1` with that transaction's date. -/
theorem lastTransactionDate_semantics_witness :
    (DB.mk [⟨"c1", "A", none, 0, "CUSTOMER", none⟩,
        newCustomer ⟨"c2", "B", none, "SUPPLIER"⟩] [] []).customers =
      (DB.mk [⟨"c1", "A", none, 0, "CUSTOMER", none⟩] [] []).customers ++
        [newCustomer ⟨"c2", "B", none, "SUPPLIER"⟩] ∧
    (newCustomer ⟨"c2", "B", none, "SUPPLIER"⟩).lastTransactionDate = none ∧
    ∀ c ∈ (DB.mk [⟨"c1", "A", none, 0, "CUSTOMER", some "2026-05-05"⟩]
        [⟨"t1", "EXPENSE", 50, "2026-05-05", none, some "c1"⟩] []).customers,
      c.id = "c1" → c.lastTransactionDate = some "2026-05-05" :=
  lastTransactionDate_semantics
    (DB.mk [⟨"c1", "A", none, 0, "CUSTOMER", none⟩] [] [])
    ⟨"c2", "B", none, "SUPPLIER"⟩
    ⟨"t1", some "EXPENSE", some 50, "2026-05-05", none, some "c1"⟩
    "EXPENSE" 50 "c1"
    (DB.mk [⟨"c1", "A", none, 0, "CUSTOMER", none⟩,
      newCustomer ⟨"c2", "B", none, "SUPPLIER"⟩] [] [])
    (DB.mk [⟨"c1", "A", none, 0, "CUSTOMER", some "2026-05-05"⟩]
      [⟨"t1", "EXPENSE", 50, "2026-05-05", none, some "c1"⟩] [])
    (by simp [createCustomer, newCustomer])
    rfl rfl rfl (by decide)
    (by simp [applyTransaction, mkTransaction, applyBalanceUpdate,
      balanceChange])

/-- A committed create-transaction never touches the reminders table. -/
theorem applyTransaction_reminders_eq (db : DB) (tx : TransactionInput)
    (db2 : DB) (h : applyTransaction db tx = .ok db2) :
    db2.reminders = db.reminders := by
  rcases hty : tx.type with _ | ty
  · simp [applyTransaction, hty] at h
  rcases ham : tx.amount with _ | amt
  · simp [applyTransaction, hty, ham] at h
  by_cases hdup : ∃ t ∈ db.transactions, t.id = tx.id
  · simp [applyTransaction, hty, ham, hdup] at h
  rcases hcid : tx.customerId with _ | cid
  · simp only [applyTransaction, hty, ham, hcid, if_neg hdup,
      Except.ok.injEq] at h
    subst h
    rfl
  · by_cases hfk : cid ∈ db.customers.map Customer.id
    · by_cases hne : cid = ""
      · subst hne
        simp only [applyTransaction, hty, ham, hcid, if_neg hdup,
          if_pos hfk, if_pos rfl, if_true, Except.ok.injEq] at h
        subst h
        rfl
      · simp only [applyTransaction, hty, ham, hcid, if_neg hdup,
          if_pos hfk, if_neg hne, Except.ok.injEq] at h
        subst h
        rfl
    · simp [applyTransaction, hty, ham, hcid, if_neg hdup, hfk] at h

/-- Serving any request either leaves the reminders table alone or appends
one row whose status is the stored default `'UPCOMING'`. -/
theorem step_reminders (db : DB) (op : Op) :
    (step db op).reminders = db.reminders ∨
    ∃ ri : ReminderInput, (step db op).reminders =
      db.reminders ++ [newReminder ri] := by
  cases op with
  | postCustomer ci =>
    left
    by_cases hdup : ∃ c ∈ db.customers, c.id = ci.id <;>
      simp [step, createCustomer, hdup]
  | postTransaction tx =>
    left
    rcases happ : applyTransaction db tx with e | db2
    · simp [step, happ]
    · have hstep : step db (.postTransaction tx) = db2 := by
        simp [step, happ]
      rw [hstep]
      exact applyTransaction_reminders_eq db tx db2 happ
  | postReminder ri =>
    rcases h : createReminder db ri with e | db2
    · left
      simp [step, h]
    · have hstep : step db (.postReminder ri) = db2 := by
        simp [step, h]
      rw [createReminder] at h
      by_cases hdup : ∃ r ∈ db.reminders, r.id = ri.id
      · simp [hdup] at h
      · rw [if_neg hdup] at h
        rcases hcid : ri.customerId with _ | cid
        · simp only [hcid, Except.ok.injEq] at h
          subst h
          right
          exact ⟨ri, by rw [hstep]⟩
        · simp only [hcid] at h
          by_cases hfk : cid ∈ db.customers.map Customer.id
          · rw [if_pos hfk] at h
            simp only [Except.ok.injEq] at h
            subst h
            right
            exact ⟨ri, by rw [hstep]⟩
          · rw [if_neg hfk] at h
            exact absurd h (by simp)

/-- Claim C10: the create-reminder insert never supplies a status, so every
committed reminder row carries the stored default `'UPCOMING'`; and since
no endpoint ever rewrites a reminder, after any request sequence against a
fresh store every stored reminder still has status `'UPCOMING'`. -/
theorem reminder_status_upcoming :
    (∀ db ri db2, createReminder db ri = .ok db2 →
      db2.reminders = db.reminders ++ [newReminder ri] ∧
      (newReminder ri).status = "UPCOMING") ∧
    ∀ ops : List Op, ∀ r ∈ (runOps ops).reminders, r.status = "UPCOMING" := by
  constructor
  · intro db ri db2 h
    rw [createReminder] at h
    by_cases hdup : ∃ r ∈ db.reminders, r.id = ri.id
    · simp [hdup] at h
    · rw [if_neg hdup] at h
      rcases hcid : ri.customerId with _ | cid
      · simp only [hcid, Except.ok.injEq] at h
        subst h
        exact ⟨rfl, rfl⟩
      · simp only [hcid] at h
        by_cases hfk : cid ∈ db.customers.map Customer.id
        · rw [if_pos hfk] at h
          simp only [Except.ok.injEq] at h
          subst h
          exact ⟨rfl, rfl⟩
        · rw [if_neg hfk] at h
          exact absurd h (by simp)
  · have key : ∀ ops : List Op, ∀ db : DB,
        (∀ r ∈ db.reminders, r.status = "UPCOMING") →
        ∀ r ∈ (ops.foldl step db).reminders, r.status = "UPCOMING" := by
      intro ops
      induction ops with
      | nil => exact fun db h => h
      | cons op ops ih =>
        intro db h
        simp only [List.foldl_cons]
        refine ih (step db op) ?_
        rcases step_reminders db op with heq | ⟨ri, heq⟩
        · rw [heq]
          exact h
        · rw [heq]
          intro r hr
          rcases List.mem_append.mp hr with h1 | h2
          · exact h r h1
          · simp only [List.mem_singleton] at h2
            subst h2
            rfl
    intro ops
    exact key ops initDB (fun r hr => absurd hr (List.not_mem_nil r))

end Khata
